import Mathlib

/-!
Shallow embedding of the semantic-retrieval pipeline of the
nextjs-ai-chatbot-yt-video-index repository.

Text is modelled as a list of characters (JS strings are sequences of
UTF-16 code units; every input appearing in the claims is ASCII).  Each
definition below is a direct translation of the TypeScript function it is
named after:

* SemanticSearchService (src/youtube-indexer/src/services/semantic-search.ts):
  extractKeywordsFromQuery, isStopWord, calculateRelevanceScore,
  calculateKeywordRelevanceScore, keywordSearch, findMatchingKeywords,
  logSearchQuery, search.
* YouTubeChannelIndexer (the channel indexer source file):
  splitIntoSentences, estimateTokenCount, getOverlapText,
  createTranscriptChunks, processChunk, createChannelRecord, the video
  upsert of processVideoWithYtdlp, and the sequence of progress values
  that indexChannel writes through updateIndexStatus.
* extractKeywordsFromTranscript (src/youtube-indexer/src/extract-keywords.ts).

JS floating point arithmetic on scores is modelled with rationals; the
constants 0.05 and 0.1 become 1/20 and 1/10.  Math.round(x) is modelled as
jsRound (floor of x + 1/2, which is how JS rounds non-negative halves up);
Math.floor and Math.ceil on the non-negative quantities of the source are
integer division.  The persistence layer is modelled relationally: a
database state is a record of lists of rows, SQL SELECTs are list
comprehensions over those lists, an INSERT appends, an UPDATE maps over
the matching rows.  External calls (the embedding provider, the vector
similarity query, DB faults of the logging and keyword-search steps) are
oracle parameters of type Except or Bool, so a single run of the model
fixes one outcome of every external interaction.
-/

/-- Character strings of the embedded program. -/
abbrev Str := List Char

/-- The character list of a Lean string literal (used for concrete inputs). -/
def str (s : String) : Str := s.data

/-- Whitespace test matching the regex class of the source patterns. -/
def isWs (c : Char) : Bool := c = ' ' || c = '\t' || c = '\n' || c = '\r'

/-- ASCII lowercasing of one character, modelling toLowerCase on the ASCII
inputs of the claims. -/
def jsLowerChar (c : Char) : Char :=
  if 'A' ≤ c ∧ c ≤ 'Z' then Char.ofNat (c.toNat + 32) else c

/-- Lowercase a string (s.toLowerCase()). -/
def jsLower (s : Str) : Str := s.map jsLowerChar

mutual

/-- Helper of runSplit: accumulating the current token (reversed). -/
def runSplitGo (p : Char → Bool) (cur : Str) : Str → List Str
  | [] => [cur.reverse]
  | c :: rest =>
    if p c then cur.reverse :: runSplitSkip p rest
    else runSplitGo p (c :: cur) rest

/-- Helper of runSplit: inside a separator run. -/
def runSplitSkip (p : Char → Bool) : Str → List Str
  | [] => [[]]
  | c :: rest =>
    if p c then runSplitSkip p rest
    else runSplitGo p [c] rest

end

/-- JS s.split(re) where re matches maximal nonempty runs of characters
satisfying p (the source splits on whitespace runs and on runs of
sentence punctuation).  Leading and trailing separator runs produce empty
tokens, as in JS; the empty string splits to one empty token. -/
def runSplit (p : Char → Bool) (s : Str) : List Str := runSplitGo p [] s

/-- Helper of charSplit. -/
def charSplitGo (c0 : Char) (cur : Str) : Str → List Str
  | [] => [cur.reverse]
  | c :: rest =>
    if c = c0 then cur.reverse :: charSplitGo c0 [] rest
    else charSplitGo c0 (c :: cur) rest

/-- JS s.split(c) for a single-character separator: does not collapse
consecutive separators. -/
def charSplit (c0 : Char) (s : Str) : List Str := charSplitGo c0 [] s

/-- JS s.trim(). -/
def jsTrim (s : Str) : Str :=
  ((s.dropWhile isWs).reverse.dropWhile isWs).reverse

/-- Decidable test that the second list starts with the first. -/
def startsWith : Str → Str → Bool
  | [], _ => true
  | _ :: _, [] => false
  | a :: as, b :: bs => a = b && startsWith as bs

/-- JS hay.includes(needle): substring containment. -/
def isSubstr (needle hay : Str) : Bool :=
  hay.tails.any (fun t => startsWith needle t)

/-- Array.prototype.join with a separator. -/
def joinWith (sep : Str) : List Str → Str
  | [] => []
  | [x] => x
  | x :: xs => x ++ sep ++ joinWith sep xs

/-- Math.round for JS numbers, on rationals: floor(x + 1/2). -/
def jsRound (q : ℚ) : ℤ := ⌊q + 1 / 2⌋

/-! ## Relational model of the persisted schema
(src/youtube-indexer/src/types/youtube-schema.ts).  Database-generated
uuid keys are modelled as naturals; timestamps as naturals. -/

/-- One row of the YouTubeChannel table. -/
structure ChannelRow where
  id : Nat
  channelId : Str
  channelName : Str
  channelUrl : Str
  isIndexed : Bool
  createdAt : Nat
  updatedAt : Nat
deriving DecidableEq

/-- One row of the YouTubeVideo table. -/
structure VideoRow where
  id : Nat
  videoId : Str
  channelId : Nat
  title : Str
  description : Str
  publishedAt : Nat
  duration : Nat
  viewCount : Nat
  likeCount : Nat
  thumbnailUrl : Str
  videoUrl : Str
  isTranscriptAvailable : Bool
  transcript : Str
  transcriptLength : Nat
  createdAt : Nat
  updatedAt : Nat
deriving DecidableEq

/-- One row of the TranscriptChunk table. -/
structure ChunkRow where
  id : Nat
  videoId : Nat
  chunkIndex : Nat
  content : Str
  startTime : Nat
  endTime : Nat
  tokenCount : Nat
  embedding : Option (List ℚ)
deriving DecidableEq

/-- One row of the VideoKeyword table; chunkId is nullable (a null chunkId
is a video-level keyword). -/
structure KeywordRow where
  id : Nat
  videoId : Nat
  chunkId : Option Nat
  keyword : Str
  entityType : Str
  confidence : ℤ
  frequency : Nat
  relevance : ℤ
deriving DecidableEq

/-- One row of the SearchQuery log table. -/
structure SearchLogRow where
  channelId : Nat
  query : Str
  queryEmbedding : List ℚ
  resultsCount : Nat
  executionTime : Nat
deriving DecidableEq

/-- A database state. -/
structure DB where
  channels : List ChannelRow
  videos : List VideoRow
  chunks : List ChunkRow
  keywords : List KeywordRow
  searchLogs : List SearchLogRow
deriving DecidableEq

/-- The empty database. -/
def DB.empty : DB := ⟨[], [], [], [], []⟩

namespace SemanticSearchService

/-- Options of SemanticSearchService.search with the defaults the source
destructuring applies. -/
structure SearchOptions where
  channelId : Option Str := none
  limit : Nat := 10
  similarityThreshold : ℚ := 1 / 2
  includeKeywords : Bool := true
deriving DecidableEq

/-- A search result record (type SearchResult of the source). -/
structure SearchResult where
  chunk : ChunkRow
  video : VideoRow
  channelName : Str
  channelUrl : Str
  relevanceScore : ℚ
  matchedKeywords : List Str
  startTime : Nat
  endTime : Nat
deriving DecidableEq

/-- The stop-word set of SemanticSearchService.isStopWord, in source order. -/
def stopWords : List Str :=
  [r"the", r"a", r"an", r"and", r"or", r"but", r"in", r"on", r"at", r"to",
   r"for", r"of", r"with", r"by", r"is", r"are", r"was", r"were", r"be",
   r"been", r"being", r"have", r"has", r"had", r"do", r"does", r"did",
   r"will", r"would", r"could", r"should", r"may", r"might", r"must",
   r"can", r"this", r"that", r"these", r"those", r"i", r"you", r"he",
   r"she", r"it", r"we", r"they", r"me", r"him", r"her", r"us", r"them",
   r"my", r"your", r"his", r"its", r"our", r"their"].map (fun s => s.data)

/-- SemanticSearchService.isStopWord. -/
def isStopWord (word : Str) : Bool := stopWords.contains word

/-- SemanticSearchService.extractKeywordsFromQuery: lowercase, split on
whitespace runs, keep tokens longer than 2 characters, drop stop words. -/
def extractKeywordsFromQuery (query : Str) : List Str :=
  ((runSplit isWs (jsLower query)).filter
      (fun w => w.length > 2)).filter
      (fun w => !isStopWord w)

/-- The SQL condition LOWER(keywordText) LIKE LOWER(percent qk percent). -/
def likeMatch (kwText qk : Str) : Bool :=
  isSubstr (jsLower qk) (jsLower kwText)

/-- SemanticSearchService.calculateRelevanceScore: start from the vector
similarity, add 0.05 per matched keyword, 0.1 for a verbatim phrase
match, 0.05 times the fraction of query words occurring inside some
content word, and clamp at 1. -/
def calculateRelevanceScore (chunk : ChunkRow) (query : Str)
    (matchedKeywords : List Str) (similarity : ℚ) : ℚ :=
  let score1 := similarity + (matchedKeywords.length : ℚ) * (1 / 20)
  let score2 := score1 +
    (if isSubstr (jsLower query) (jsLower chunk.content) then (1 / 10 : ℚ)
     else 0)
  let queryWords := runSplit isWs (jsLower query)
  let contentWords := runSplit isWs (jsLower chunk.content)
  let matchingWords :=
    queryWords.filter (fun w => contentWords.any (fun cw => isSubstr w cw))
  let score3 := score2 +
    ((matchingWords.length : ℚ) / (queryWords.length : ℚ)) * (1 / 20)
  min score3 1

/-- SemanticSearchService.calculateKeywordRelevanceScore: the fraction of
query keywords found (case-insensitively, by substring) among the matched
keywords; 0 when nothing matched. -/
def calculateKeywordRelevanceScore (matchedKeywords queryKeywords : List Str) :
    ℚ :=
  if matchedKeywords = [] then 0
  else
    let intersection := queryKeywords.filter
      (fun qk => matchedKeywords.any (fun mk => likeMatch mk qk))
    (intersection.length : ℚ) / (queryKeywords.length : ℚ)

/-- SemanticSearchService.getVideoById: first video row with the id. -/
def getVideoById (db : DB) (videoId : Nat) : Option VideoRow :=
  db.videos.find? (fun v => v.id == videoId)

/-- SemanticSearchService.getChannelById: name and url of the first channel
row with the id. -/
def getChannelById (db : DB) (channelId : Nat) : Option (Str × Str) :=
  (db.channels.find? (fun c => c.id == channelId)).map
    (fun c => (c.channelName, c.channelUrl))

/-- SemanticSearchService.getChannelDbIdByHandle: database id of the first
channel row whose external channelId equals the handle. -/
def getChannelDbIdByHandle (db : DB) (handle : Str) : Option Nat :=
  (db.channels.find? (fun c => c.channelId == handle)).map (fun c => c.id)

/-- SemanticSearchService.findMatchingKeywords.  The WHERE clause the
source builds is chunkId = id AND like(q0) OR like(q1) OR ...; SQL gives
AND precedence over OR, so the chunk restriction binds only to the first
query keyword. -/
def findMatchingKeywords (db : DB) (chunkId : Nat) (query : Str) :
    List Str :=
  let queryKeywords := extractKeywordsFromQuery query
  if queryKeywords = [] then []
  else
    (db.keywords.filter (fun kw =>
      match queryKeywords with
      | [] => false
      | q0 :: qs =>
        (kw.chunkId == some chunkId && likeMatch kw.keyword q0)
          || qs.any (fun q => likeMatch kw.keyword q))).map
      (fun kw => kw.keyword)

/-- One row of the three-way join of keywordSearch. -/
structure JoinRow where
  kw : KeywordRow
  chunk : ChunkRow
  video : VideoRow
deriving DecidableEq

/-- The joined candidate rows of keywordSearch: videoKeyword INNER JOIN
transcriptChunk ON videoKeyword.chunkId = transcriptChunk.id INNER JOIN
youtubeVideo ON transcriptChunk.videoId = youtubeVideo.id.  A null
chunkId never equals an id, so such rows never join. -/
def keywordJoin (db : DB) : List JoinRow :=
  db.keywords.flatMap (fun kw =>
    db.chunks.flatMap (fun ch =>
      db.videos.filterMap (fun v =>
        if kw.chunkId == some ch.id && ch.videoId == v.id then
          some ⟨kw, ch, v⟩
        else none)))

/-- Disjunction of likeMatch conditions where the channel condition is
ANDed onto the last disjunct only, reflecting SQL operator precedence in
the raw template like(q0) OR ... OR like(qn) AND channelId = c. -/
def likeAnyWithChan (kwText : Str) (qs : List Str) (chanCond : Bool) :
    Bool :=
  match qs with
  | [] => false
  | [q] => likeMatch kwText q && chanCond
  | q :: rest => likeMatch kwText q || likeAnyWithChan kwText rest chanCond

/-- The WHERE filter of keywordSearch on one joined row. -/
def keywordWhere (queryKeywords : List Str) (channelDbId : Option Nat)
    (row : JoinRow) : Bool :=
  match channelDbId with
  | none => queryKeywords.any (fun q => likeMatch row.kw.keyword q)
  | some c =>
    likeAnyWithChan row.kw.keyword queryKeywords (row.video.channelId == c)

/-- Grouping of the selected (chunk, keyword) rows by chunk id, in first
occurrence order, accumulating keyword texts (the Map-based loop of
keywordSearch). -/
def groupByChunk (rows : List (ChunkRow × Str)) : List (ChunkRow × List Str) :=
  rows.foldl (fun acc p =>
    if acc.any (fun e => e.1.id == p.1.id) then
      acc.map (fun e => if e.1.id == p.1.id then (e.1, e.2 ++ [p.2]) else e)
    else acc ++ [(p.1, [p.2])]) []

/-- The result assembly shared shape: resolve video and channel, skip the
group on a referential miss, score and build the record. -/
def buildKeywordResult (db : DB) (queryKeywords : List Str)
    (g : ChunkRow × List Str) : Option SearchResult :=
  match getVideoById db g.1.videoId with
  | none => none
  | some video =>
    match getChannelById db video.channelId with
    | none => none
    | some cc =>
      some { chunk := g.1, video := video, channelName := cc.1,
             channelUrl := cc.2,
             relevanceScore := calculateKeywordRelevanceScore g.2 queryKeywords,
             matchedKeywords := g.2,
             startTime := g.1.startTime, endTime := g.1.endTime }

/-- SemanticSearchService.keywordSearch.  ORDER BY confidence DESC and the
final relevance sort are modelled with the stable insertion sort (the
database sort order among equal keys is unspecified; JS Array sort is
stable). -/
def keywordSearch (db : DB) (query : Str) (opts : SearchOptions) :
    List SearchResult :=
  let resolved : Option (Option Nat) :=
    match opts.channelId with
    | none => some none
    | some h =>
      match getChannelDbIdByHandle db h with
      | none => none
      | some i => some (some i)
  match resolved with
  | none => []
  | some channelDbId =>
    let queryKeywords := extractKeywordsFromQuery query
    if queryKeywords = [] then []
    else
      let filtered := (keywordJoin db).filter
        (keywordWhere queryKeywords channelDbId)
      let ordered := (List.insertionSort
        (fun a b => b.kw.confidence ≤ a.kw.confidence) filtered).take
        (opts.limit * 2)
      let selected := ordered.map (fun row => (row.chunk, row.kw.keyword))
      let groups := groupByChunk selected
      let searchResults := groups.filterMap (buildKeywordResult db queryKeywords)
      (List.insertionSort
        (fun a b => b.relevanceScore ≤ a.relevanceScore) searchResults).take
        opts.limit

/-- SemanticSearchService.logSearchQuery: best-effort append of a log row,
only when a channel id is present; a thrown insert (logFails) is caught
and leaves the database unchanged. -/
def logSearchQuery (db : DB) (query : Str) (queryEmbedding : List ℚ)
    (channelId : Option Nat) (logFails : Bool) : DB :=
  match channelId with
  | none => db
  | some c =>
    if logFails then db
    else
      { db with searchLogs := db.searchLogs ++
          [{ channelId := c, query := query, queryEmbedding := queryEmbedding,
             resultsCount := 0, executionTime := 0 }] }

/-- The per-candidate processing of the vector path of search: resolve
video and channel (skip on miss), find matched keywords when requested,
compute the composite score, assemble the record. -/
def buildVectorResult (db : DB) (query : Str) (opts : SearchOptions)
    (p : ChunkRow × ℚ) : Option SearchResult :=
  match getVideoById db p.1.videoId with
  | none => none
  | some video =>
    match getChannelById db video.channelId with
    | none => none
    | some cc =>
      let matched :=
        if opts.includeKeywords then findMatchingKeywords db p.1.id query
        else []
      some { chunk := p.1, video := video, channelName := cc.1,
             channelUrl := cc.2,
             relevanceScore := calculateRelevanceScore p.1 query matched p.2,
             matchedKeywords := matched,
             startTime := p.1.startTime, endTime := p.1.endTime }

/-- SemanticSearchService.search.  The oracle parameters fix the outcome
of the external interactions of one call: embedRes is the query-embedding
call (generateEmbedding; a throw propagates, it is not caught), vecRes is
the vector similarity query (findSimilarChunks; a throw is caught and
treated as no vector results), kwFails makes the keyword-search database
step throw (caught, yielding empty results), logFails makes the log
insert throw (caught inside logSearchQuery).  Returns the outcome
together with the final database state. -/
def search (db : DB) (embedRes : Except Str (List ℚ))
    (vecRes : Except Str (List (ChunkRow × ℚ))) (kwFails logFails : Bool)
    (query : Str) (opts : SearchOptions) :
    Except Str (List SearchResult) × DB :=
  match embedRes with
  | .error e => (.error e, db)
  | .ok queryEmbedding =>
    let resolved : Option (Option Nat) :=
      match opts.channelId with
      | none => some none
      | some h =>
        match getChannelDbIdByHandle db h with
        | none => none
        | some i => some (some i)
    match resolved with
    | none => (.ok [], db)
    | some channelDbId =>
      let db1 := logSearchQuery db query queryEmbedding channelDbId logFails
      let chunkSimilarities :=
        match vecRes with
        | .error _ => []
        | .ok l => l
      if chunkSimilarities.isEmpty then
        if kwFails then (.ok [], db1)
        else (.ok (keywordSearch db1 query opts), db1)
      else
        let results := chunkSimilarities.filterMap
          (buildVectorResult db1 query opts)
        (.ok ((List.insertionSort
          (fun a b => b.relevanceScore ≤ a.relevanceScore) results).take
          opts.limit), db1)

end SemanticSearchService

namespace YouTubeChannelIndexer

/-- Configuration constant CHUNK_SIZE (tokens per chunk). -/
def CHUNK_SIZE : Nat := 400

/-- Configuration constant CHUNK_OVERLAP (token overlap between chunks). -/
def CHUNK_OVERLAP : Nat := 50

/-- Configuration constant MAX_KEYWORDS_PER_CHUNK. -/
def MAX_KEYWORDS_PER_CHUNK : Nat := 20

/-- Sentence punctuation class of SENTENCE_SPLIT_REGEX. -/
def isSentencePunct (c : Char) : Bool := c = '.' || c = '!' || c = '?'

/-- YouTubeChannelIndexer.splitIntoSentences: split on runs of . ! ?,
trim each part, keep the nonempty parts. -/
def splitIntoSentences (text : Str) : List Str :=
  ((runSplit isSentencePunct text).map jsTrim).filter (fun s => s.length > 0)

/-- YouTubeChannelIndexer.estimateTokenCount: Math.ceil(length / 4). -/
def estimateTokenCount (text : Str) : Nat := (text.length + 3) / 4

/-- YouTubeChannelIndexer.getOverlapText: the last floor(overlapTokens/4)
space-separated words, joined by spaces (Array.slice with a negative
index takes a suffix). -/
def getOverlapText (text : Str) (overlapTokens : Nat) : Str :=
  let words := charSplit ' ' text
  let overlapWords := overlapTokens / 4
  joinWith (str (r" ")) (words.drop (words.length - overlapWords))

/-- A chunk as produced by segmentation (the inserted TranscriptChunk row
minus the database-generated id). -/
structure SegChunk where
  chunkIndex : Nat
  content : Str
  startTime : Nat
  endTime : Nat
  tokenCount : Nat
deriving DecidableEq

/-- The end time the source derives when a chunk is closed:
startTime + Math.floor((tokens / 4) * 60), which is startTime + 15 tokens,
written here as exact integer division by 4 after scaling by 60. -/
def chunkEndTime (startTime tokens : Nat) : Nat :=
  startTime + tokens * 60 / 4

/-- The loop of YouTubeChannelIndexer.createTranscriptChunks.  State:
remaining sentences, current accumulated text, its running token count,
the next chunk index and the start time of the chunk being accumulated.
When adding a sentence would exceed CHUNK_SIZE and the accumulation is
nonempty, the chunk is emitted and the next one is seeded with the
overlap text followed by the sentence; the final nonempty accumulation is
always emitted. -/
def segGo : List Str → Str → Nat → Nat → Nat → List SegChunk
  | [], cur, curTok, idx, start =>
    if cur ≠ [] then
      [⟨idx, jsTrim cur, start, chunkEndTime start curTok, curTok⟩]
    else []
  | sentence :: rest, cur, curTok, idx, start =>
    let st := estimateTokenCount sentence
    if curTok + st > CHUNK_SIZE ∧ cur ≠ [] then
      let c : SegChunk := ⟨idx, jsTrim cur, start, chunkEndTime start curTok,
        curTok⟩
      let overlap := getOverlapText cur CHUNK_OVERLAP
      let newCur := overlap ++ str (r" ") ++ sentence
      c :: segGo rest newCur (estimateTokenCount newCur) (idx + 1) c.endTime
    else
      segGo rest (if cur = [] then sentence else cur ++ str (r" ") ++ sentence)
        (curTok + st) idx start

/-- YouTubeChannelIndexer.createTranscriptChunks (the list of chunk rows it
inserts, in order). -/
def createTranscriptChunks (transcript : Str) : List SegChunk :=
  segGo (splitIntoSentences transcript) [] 0 0 0

end YouTubeChannelIndexer

/-! ## Entity extraction (extract-keywords.ts) -/

/-- One hit returned by the external NER model. -/
structure NerHit where
  word : Str
  entity : Str
  score : ℚ
deriving DecidableEq

/-- The keyword records of extract-keywords.ts (type Keyword). -/
structure ExtractedKeyword where
  word : Str
  entity : Str
  score : ℚ
deriving DecidableEq

/-- The Map.set based deduplication state: association list in insertion
order; setting an existing key replaces the value in place. -/
def mapSet (m : List (Str × ExtractedKeyword)) (k : Str)
    (v : ExtractedKeyword) : List (Str × ExtractedKeyword) :=
  if m.any (fun p => p.1 == k) then
    m.map (fun p => if p.1 == k then (k, v) else p)
  else m ++ [(k, v)]

/-- The dedup key of extract-keywords.ts: lowercased word, underscore,
entity tag. -/
def dedupKey (kw : ExtractedKeyword) : Str :=
  jsLower kw.word ++ str (r"_") ++ kw.entity

/-- The dedup loop: keep the highest-scoring duplicate per key. -/
def dedupFold (raw : List ExtractedKeyword) : List (Str × ExtractedKeyword) :=
  raw.foldl (fun m kw =>
    let k := dedupKey kw
    match m.find? (fun p => p.1 == k) with
    | none => mapSet m k kw
    | some p => if p.2.score < kw.score then mapSet m k kw else m) []

/-- extractKeywordsFromTranscript applied to the raw hits the NER model
returned (the model call itself is the external oracle): filter hits with
score strictly above 0.5, deduplicate by (lowercased word, entity) keeping
the higher score, sort descending by score. -/
def extractKeywordsFromTranscript (hits : List NerHit) :
    List ExtractedKeyword :=
  let rawKeywords := (hits.filter (fun h => (1 : ℚ) / 2 < h.score)).map
    (fun h => ExtractedKeyword.mk h.word h.entity h.score)
  List.insertionSort (fun a b => b.score ≤ a.score)
    ((dedupFold rawKeywords).map (fun p => p.2))

namespace YouTubeChannelIndexer

/-- The keyword rows YouTubeChannelIndexer.processChunk inserts for one
chunk, given the extraction result: the first MAX_KEYWORDS_PER_CHUNK
keywords, each with confidence and relevance Math.round(score * 100) and
frequency 1. -/
def processChunkKeywordRows (videoId chunkId : Nat)
    (extracted : List ExtractedKeyword) : List KeywordRow :=
  (extracted.take MAX_KEYWORDS_PER_CHUNK).map (fun k =>
    { id := 0, videoId := videoId, chunkId := some chunkId,
      keyword := k.word, entityType := k.entity,
      confidence := jsRound (k.score * 100), frequency := 1,
      relevance := jsRound (k.score * 100) })

/-! ## Index writer upserts -/

/-- YouTubeChannelIndexer.createChannelRecord: select by external
channelId; update channelName, channelUrl and updatedAt when a row
exists, insert a fresh non-indexed row otherwise. -/
def createChannelRecord (rows : List ChannelRow) (newId now : Nat)
    (channelId channelName channelUrl : Str) : List ChannelRow :=
  if rows.any (fun r => r.channelId == channelId) then
    rows.map (fun r =>
      if r.channelId == channelId then
        { r with channelName := channelName, channelUrl := channelUrl,
                 updatedAt := now }
      else r)
  else
    rows ++ [{ id := newId, channelId := channelId,
               channelName := channelName, channelUrl := channelUrl,
               isIndexed := false, createdAt := now, updatedAt := now }]

/-- The mutable video fields of the upsert of processVideoWithYtdlp. -/
structure VideoData where
  channelId : Nat
  videoId : Str
  title : Str
  description : Str
  publishedAt : Nat
  duration : Nat
  viewCount : Nat
  likeCount : Nat
  thumbnailUrl : Str
  videoUrl : Str
  transcript : Str
deriving DecidableEq

/-- The video upsert of processVideoWithYtdlp: insert with
onConflictDoUpdate on the unique external videoId; on conflict the
mutable fields are updated and updatedAt refreshed, never a second row
inserted. -/
def upsertVideo (rows : List VideoRow) (newId now : Nat) (d : VideoData) :
    List VideoRow :=
  if rows.any (fun r => r.videoId == d.videoId) then
    rows.map (fun r =>
      if r.videoId == d.videoId then
        { r with title := d.title, description := d.description,
                 publishedAt := d.publishedAt, duration := d.duration,
                 viewCount := d.viewCount, likeCount := d.likeCount,
                 thumbnailUrl := d.thumbnailUrl, videoUrl := d.videoUrl,
                 isTranscriptAvailable := true, transcript := d.transcript,
                 transcriptLength := d.transcript.length, updatedAt := now }
      else r)
  else
    rows ++ [{ id := newId, videoId := d.videoId, channelId := d.channelId,
               title := d.title, description := d.description,
               publishedAt := d.publishedAt, duration := d.duration,
               viewCount := d.viewCount, likeCount := d.likeCount,
               thumbnailUrl := d.thumbnailUrl, videoUrl := d.videoUrl,
               isTranscriptAvailable := true, transcript := d.transcript,
               transcriptLength := d.transcript.length,
               createdAt := now, updatedAt := now }]

/-! ## The progress writes of indexChannel -/

/-- Processed-video counts after each batch of BATCH_SIZE = 3: the loop
slices the video list into batches and adds each batch length. -/
def batchEnds (n : Nat) : List Nat :=
  (List.range ((n + 2) / 3)).map (fun i => min (3 * (i + 1)) n)

/-- The per-batch progress value:
Math.round(20 + (processedCount / totalVideos) * 30). -/
def batchProgress (n pc : Nat) : ℤ :=
  jsRound (20 + ((pc : ℚ) / (n : ℚ)) * 30)

/-- The sequence of progress values a successful indexChannel run writes
to the IndexStatus row: 0 at creation, 10 once the video list is known,
one value per batch, and 100 at completion. -/
def progressWritesSuccess (n : Nat) : List ℤ :=
  0 :: 10 :: ((batchEnds n).map (batchProgress n) ++ [100])

/-- The sequence of progress values written by a run over n videos that
fails after k of the successful writes have happened (k at least 1, so
the status row exists): the catch block of indexChannel writes status
failed with progress 0. -/
def progressWritesFailed (n k : Nat) : List ℤ :=
  (progressWritesSuccess n).take k ++ [0]

end YouTubeChannelIndexer

/-! ## Auxiliary definitions for the claims: an externally supplied join
for keywordSearch, the per-keyword join contribution, the time-chain
predicate on chunks, and concrete rows and inputs used by witnesses. -/

open SemanticSearchService YouTubeChannelIndexer

/-- Concrete chunk used by witnesses. -/
def wChunk : ChunkRow :=
  { id := 1, videoId := 1, chunkIndex := 0,
    content := str (r"barack obama gave a speech"), startTime := 0,
    endTime := 60, tokenCount := 7, embedding := some [1] }

/-- keywordSearch with the joined candidate rows supplied from outside;
keywordSearch is definitionally this applied to keywordJoin. -/
def keywordSearchOnJoin (db : DB) (join : List JoinRow) (query : Str)
    (opts : SearchOptions) : List SearchResult :=
  let resolved : Option (Option Nat) :=
    match opts.channelId with
    | none => some none
    | some h =>
      match getChannelDbIdByHandle db h with
      | none => none
      | some i => some (some i)
  match resolved with
  | none => []
  | some channelDbId =>
    let queryKeywords := extractKeywordsFromQuery query
    if queryKeywords = [] then []
    else
      let filtered := join.filter (keywordWhere queryKeywords channelDbId)
      let ordered := (List.insertionSort
        (fun a b => b.kw.confidence ≤ a.kw.confidence) filtered).take
        (opts.limit * 2)
      let selected := ordered.map (fun row => (row.chunk, row.kw.keyword))
      let groups := groupByChunk selected
      let searchResults := groups.filterMap (buildKeywordResult db queryKeywords)
      (List.insertionSort
        (fun a b => b.relevanceScore ≤ a.relevanceScore) searchResults).take
        opts.limit

/-- The per-keyword half of the join: the rows a single keyword row
contributes. -/
def joinOfKeyword (db : DB) (kw : KeywordRow) : List JoinRow :=
  db.chunks.flatMap (fun ch =>
    db.videos.filterMap (fun v =>
      if kw.chunkId == some ch.id && ch.videoId == v.id then
        some ⟨kw, ch, v⟩
      else none))

/-- Concrete video row used by witnesses. -/
def wVideo : VideoRow :=
  { id := 1, videoId := str (r"v1"), channelId := 1,
    title := str (r"speech"), description := [], publishedAt := 0,
    duration := 60, viewCount := 0, likeCount := 0, thumbnailUrl := [],
    videoUrl := [], isTranscriptAvailable := true, transcript := [],
    transcriptLength := 0, createdAt := 0, updatedAt := 0 }

/-- Concrete keyword row used by witnesses. -/
def wKeywordRow : KeywordRow :=
  { id := 1, videoId := 1, chunkId := some 1,
    keyword := str (r"obama"), entityType := str (r"PER"),
    confidence := 90, frequency := 1, relevance := 90 }

/-- Concrete database used by witnesses. -/
def wDB : DB :=
  { channels := [], videos := [wVideo], chunks := [wChunk],
    keywords := [wKeywordRow], searchLogs := [] }

/-- Concrete NER hits used by witnesses. -/
def wHits : List NerHit :=
  [{ word := str (r"obama"), entity := str (r"B-PER"), score := 9 / 10 }]

/-- Concrete video data used by the C6 witness. -/
def wVideoData : VideoData :=
  { channelId := 1, videoId := str (r"v1"), title := str (r"speech"),
    description := [], publishedAt := 0, duration := 60, viewCount := 0,
    likeCount := 0, thumbnailUrl := [], videoUrl := [],
    transcript := str (r"hello world") }

/-- Chunk time ranges starting from a given time: each chunk starts where
told, ends no earlier than it starts, and hands its end time to the next
chunk. -/
def timesChainFrom : Nat → List SegChunk → Prop
  | _, [] => True
  | s, c :: rest =>
    c.startTime = s ∧ c.startTime ≤ c.endTime ∧ timesChainFrom c.endTime rest

/-- Concrete transcript used by witnesses. -/
def wTranscript : Str :=
  str (r"Cats are great. Dogs are loyal. Birds can fly.")

/-! ## Claims -/

open SemanticSearchService YouTubeChannelIndexer

/-- C2, counterexample: query keyword extraction of the concrete query of
the claim does not drop the word about, because about is not in the
stop-word set of isStopWord; the claimed output list is wrong. -/
theorem C2_counterexample :
    extractKeywordsFromQuery (str (r"Tell me about Barack Obama")) ≠
      [str (r"tell"), str (r"barack"), str (r"obama")] := by decide

/-- C2, amended: query keyword extraction of the query Tell me about
Barack Obama returns exactly [tell, about, barack, obama]: tokens of
length at most 2 are dropped, and about survives since it is not a stop
word of the implemented list. -/
theorem C2_amended_extraction :
    extractKeywordsFromQuery (str (r"Tell me about Barack Obama")) =
      [str (r"tell"), str (r"about"), str (r"barack"), str (r"obama")] := by
  decide

/-- C3, counterexample: a run over zero videos that fails after the
status write of 10 percent writes the progress sequence [0, 10, 0],
because the catch block of indexChannel writes the failed status with
progress 0; the sequence is not monotonically non-decreasing. -/
theorem C3_counterexample :
    progressWritesFailed 0 2 = [0, 10, 0] ∧
      ¬ List.Chain' (fun a b => a ≤ b) (progressWritesFailed 0 2) := by
  have e : progressWritesFailed 0 2 = [0, 10, 0] := by decide
  refine ⟨e, ?_⟩
  rw [e]
  simp [List.chain'_cons, List.chain'_singleton]

/-- C4, counterexample: the transcript consisting of a single period is
non-empty, yet segmentation produces zero chunks (its sentence split is
empty), refuting the claimed equivalence of chunk production with
non-emptiness of the transcript. -/
theorem C4_counterexample :
    createTranscriptChunks (str (r".")) = [] ∧ str (r".") ≠ [] := by decide

/-- C7: every relevance score the search engine computes lies in [0, 1]:
on the vector path the similarity exceeds the configured non-negative
threshold (all call sites of search pass thresholds in [0, 1], the
defaults being 0.5 and 0.7), and on the fallback path the query keyword
list is non-empty (keywordSearch returns early otherwise). -/
theorem C7_score_bounds :
    (∀ (chunk : ChunkRow) (query : Str) (matched : List Str)
        (sim threshold : ℚ), 0 ≤ threshold → threshold < sim →
        0 ≤ calculateRelevanceScore chunk query matched sim ∧
          calculateRelevanceScore chunk query matched sim ≤ 1) ∧
    (∀ matched queryKeywords : List Str, queryKeywords ≠ [] →
        0 ≤ calculateKeywordRelevanceScore matched queryKeywords ∧
          calculateKeywordRelevanceScore matched queryKeywords ≤ 1) := by
  constructor
  · intro chunk query matched sim threshold h0 hs
    have hsim : 0 < sim := lt_of_le_of_lt h0 hs
    unfold calculateRelevanceScore
    refine ⟨le_min ?_ (by norm_num), min_le_right _ _⟩
    have h1 : 0 ≤ (matched.length : ℚ) * (1 / 20) := by positivity
    have h2 : (0 : ℚ) ≤
        (if isSubstr (jsLower query) (jsLower chunk.content) then
          (1 / 10 : ℚ) else 0) := by
      split <;> norm_num
    have h3 : 0 ≤
        ((((runSplit isWs (jsLower query)).filter (fun w =>
            (runSplit isWs (jsLower chunk.content)).any
              (fun cw => isSubstr w cw))).length : ℚ) /
          (((runSplit isWs (jsLower query)).length : ℚ))) * (1 / 20) := by
      positivity
    linarith
  · intro matched qks hne
    unfold calculateKeywordRelevanceScore
    split
    · norm_num
    · have hq : 0 < (qks.length : ℚ) := by
        have h0 : qks.length ≠ 0 := fun h =>
          hne (List.length_eq_zero.mp h)
        exact_mod_cast Nat.pos_of_ne_zero h0
      refine ⟨by positivity, ?_⟩
      rw [div_le_one hq]
      exact_mod_cast List.length_filter_le _ _

/-- C7 witness: the bounds at one concrete, reachable instantiation of
both scoring paths. -/
theorem C7_witness :
    (0 ≤ calculateRelevanceScore wChunk (str (r"obama")) [] (3 / 4) ∧
      calculateRelevanceScore wChunk (str (r"obama")) [] (3 / 4) ≤ 1) ∧
    (0 ≤ calculateKeywordRelevanceScore [str (r"barack obama")]
        [str (r"obama")] ∧
      calculateKeywordRelevanceScore [str (r"barack obama")]
        [str (r"obama")] ≤ 1) :=
  ⟨C7_score_bounds.1 wChunk (str (r"obama")) [] (3 / 4) (1 / 2)
      (by norm_num) (by norm_num),
    C7_score_bounds.2 [str (r"barack obama")] [str (r"obama")] (by decide)⟩

/-- A keyword row with a null chunkId contributes no joined rows. -/
theorem joinOfKeyword_null (db : DB) (kw : KeywordRow)
    (h : kw.chunkId = none) : joinOfKeyword db kw = [] := by
  refine List.flatMap_eq_nil_iff.mpr ?_
  intro ch _
  refine List.filterMap_eq_nil_iff.mpr ?_
  intro v _
  simp [h]

/-- Filtering out null-chunkId rows does not change a flatMap whose
function kills them. -/
theorem filter_flatMap_nonnull (db : DB) (ks : List KeywordRow) :
    (ks.filter (fun kw => kw.chunkId ≠ none)).flatMap (joinOfKeyword db) =
      ks.flatMap (joinOfKeyword db) := by
  induction ks with
  | nil => rfl
  | cons kw rest ih =>
    simp only [decide_not] at ih
    by_cases h : kw.chunkId = none
    · simp [List.filter_cons, h, joinOfKeyword_null db kw h, ih]
    · simp [List.filter_cons, h, ih]

/-- The inner join drops every keyword row with a null chunkId. -/
theorem keywordJoin_filter_nonnull (db : DB) :
    keywordJoin
        { db with keywords := db.keywords.filter (fun kw => kw.chunkId ≠ none) } =
      keywordJoin db := by
  show (db.keywords.filter (fun kw => kw.chunkId ≠ none)).flatMap
      (joinOfKeyword db) =
    db.keywords.flatMap (joinOfKeyword db)
  exact filter_flatMap_nonnull db db.keywords

/-- C9: the keyword fallback search reaches chunks only through keyword
rows whose chunkId is non-null: removing every video-level keyword row
(null chunkId) from the database leaves the result of keywordSearch
unchanged for every database state, query and options, and every joined
candidate row ties its keyword row to the chunk through that non-null
chunkId. -/
theorem C9_keyword_search_nonnull (db : DB) (q : Str)
    (opts : SearchOptions) :
    keywordSearch
        { db with keywords := db.keywords.filter (fun kw => kw.chunkId ≠ none) }
        q opts = keywordSearch db q opts ∧
    ∀ row ∈ keywordJoin db, row.kw.chunkId = some row.chunk.id := by
  constructor
  · have h1 : keywordSearch
        { db with keywords := db.keywords.filter (fun kw => kw.chunkId ≠ none) }
        q opts =
        keywordSearchOnJoin db
          (keywordJoin
            { db with
                keywords := db.keywords.filter (fun kw => kw.chunkId ≠ none) })
          q opts := rfl
    rw [h1, keywordJoin_filter_nonnull]
    rfl
  · intro row hrow
    simp only [keywordJoin, List.mem_flatMap, List.mem_filterMap] at hrow
    obtain ⟨kw, _, ch, _, v, _, hif⟩ := hrow
    by_cases hc : kw.chunkId == some ch.id && ch.videoId == v.id
    · rw [if_pos hc] at hif
      cases hif
      simp only [Bool.and_eq_true, beq_iff_eq] at hc
      exact hc.1
    · rw [if_neg hc] at hif
      cases hif

/-- C9 witness: a concrete database with one chunk-level keyword row,
whose single joined row carries the chunkId of its chunk. -/
theorem C9_witness :
    ((keywordJoin wDB).headD ⟨wKeywordRow, wChunk, wVideo⟩).kw.chunkId =
      some ((keywordJoin wDB).headD ⟨wKeywordRow, wChunk, wVideo⟩).chunk.id :=
  (C9_keyword_search_nonnull wDB [] {}).2 _ (by decide)

/-- Every value stored by mapSet is the new value or an old one. -/
theorem mapSet_mem (m : List (Str × ExtractedKeyword)) (k : Str)
    (v : ExtractedKeyword) :
    ∀ p ∈ mapSet m k v, p.2 = v ∨ p ∈ m := by
  intro p hp
  unfold mapSet at hp
  split at hp
  · obtain ⟨q, hq, hfq⟩ := List.mem_map.mp hp
    by_cases hk : q.1 == k
    · rw [if_pos hk] at hfq
      left
      rw [← hfq]
    · rw [if_neg hk] at hfq
      right
      rw [← hfq]
      exact hq
  · rcases List.mem_append.mp hp with hin | hnew
    · right
      exact hin
    · left
      rw [List.mem_singleton.mp hnew]
/-- Every value surviving the dedup fold satisfies any property all
processed keywords and all accumulator values satisfy. -/
theorem dedupFold_pred (P : ExtractedKeyword → Prop) :
    ∀ (l : List ExtractedKeyword) (acc : List (Str × ExtractedKeyword)),
      (∀ p ∈ acc, P p.2) → (∀ x ∈ l, P x) →
      ∀ p ∈ l.foldl (fun m kw =>
          let k := dedupKey kw
          match m.find? (fun q => q.1 == k) with
          | none => mapSet m k kw
          | some q => if q.2.score < kw.score then mapSet m k kw else m) acc,
        P p.2 := by
  intro l
  induction l with
  | nil =>
    intro acc hacc _ p hp
    exact hacc p hp
  | cons x xs ih =>
    intro acc hacc hl p hp
    simp only [List.foldl_cons] at hp
    have hPx : P x := hl x (List.mem_cons_self _ _)
    have hacc2 : ∀ q ∈ (match acc.find? (fun q => q.1 == dedupKey x) with
        | none => mapSet acc (dedupKey x) x
        | some q0 =>
          if q0.2.score < x.score then mapSet acc (dedupKey x) x else acc),
        P q.2 := by
      cases acc.find? (fun q => q.1 == dedupKey x) with
      | none =>
        intro q hq
        rcases mapSet_mem _ _ _ q hq with h | h
        · rw [h]; exact hPx
        · exact hacc q h
      | some q0 =>
        dsimp only
        by_cases hsc : q0.2.score < x.score
        · rw [if_pos hsc]
          intro q hq
          rcases mapSet_mem _ _ _ q hq with h | h
          · rw [h]; exact hPx
          · exact hacc q h
        · rw [if_neg hsc]
          exact hacc
    exact ih _ hacc2 (fun y hy => hl y (List.mem_cons_of_mem _ hy)) p hp

/-- Every keyword the extraction returns has a score strictly above 1/2
and, when every hit scores at most 1, at most 1. -/
theorem extract_score_bounds (hits : List NerHit)
    (hle : ∀ h ∈ hits, h.score ≤ 1) :
    ∀ k ∈ extractKeywordsFromTranscript hits,
      1 / 2 < k.score ∧ k.score ≤ 1 := by
  intro k hk
  simp only [extractKeywordsFromTranscript] at hk
  have hk2 := (List.perm_insertionSort
    (fun a b : ExtractedKeyword => b.score ≤ a.score) _).mem_iff.mp hk
  obtain ⟨p, hp, hpk⟩ := List.mem_map.mp hk2
  have hP := dedupFold_pred (fun k => 1 / 2 < k.score ∧ k.score ≤ 1) _ []
    (by intro q hq; cases hq)
    ?_ p hp
  · rw [← hpk]; exact hP
  · intro x hx
    obtain ⟨h, hh, hhx⟩ := List.mem_map.mp hx
    have hmem := List.mem_filter.mp hh
    have hgt : (1 : ℚ) / 2 < h.score := by
      have h2 := hmem.2
      simpa using h2
    rw [← hhx]
    exact ⟨hgt, hle h hmem.1⟩

/-- C10: every Keyword row persisted by processChunk has confidence equal
to relevance, both round(100 times the NER score); since extraction keeps
only hits with score strictly above 0.5 and NER scores are at most 1,
both values lie in [50, 100], and at most MAX_KEYWORDS_PER_CHUNK = 20
rows are persisted per chunk (List.all makes the per-row property one
boolean over the row list). -/
theorem C10_keyword_rows (videoId chunkId : Nat) (hits : List NerHit)
    (hle : ∀ h ∈ hits, h.score ≤ 1) :
    (processChunkKeywordRows videoId chunkId
        (extractKeywordsFromTranscript hits)).length ≤
      MAX_KEYWORDS_PER_CHUNK ∧
    (processChunkKeywordRows videoId chunkId
        (extractKeywordsFromTranscript hits)).all (fun r =>
      decide (r.confidence = r.relevance) && decide (50 ≤ r.confidence) &&
        decide (r.confidence ≤ 100)) = true := by
  constructor
  · unfold processChunkKeywordRows
    rw [List.length_map, List.length_take]
    exact min_le_left _ _
  · rw [List.all_eq_true]
    intro r hr
    unfold processChunkKeywordRows at hr
    obtain ⟨k, hk, hkr⟩ := List.mem_map.mp hr
    have hkmem : k ∈ extractKeywordsFromTranscript hits :=
      List.take_subset _ _ hk
    obtain ⟨hgt, hle1⟩ := extract_score_bounds hits hle k hkmem
    subst hkr
    have h50 : (50 : ℤ) ≤ jsRound (k.score * 100) := by
      rw [jsRound, Int.le_floor]
      push_cast
      linarith
    have h100 : jsRound (k.score * 100) ≤ 100 := by
      rw [jsRound]
      have h101 : (⌊k.score * 100 + 1 / 2⌋ : ℤ) < 101 := by
        rw [Int.floor_lt]
        push_cast
        linarith
      omega
    simp only [Bool.and_eq_true, decide_eq_true_eq]
    refine ⟨⟨?_, ?_⟩, ?_⟩
    · trivial
    · exact h50
    · exact h100

/-- C10 witness: the bounds at a concrete extraction with one hit of
score 0.9. -/
theorem C10_witness :
    (processChunkKeywordRows 1 1 (extractKeywordsFromTranscript wHits)).length ≤
      MAX_KEYWORDS_PER_CHUNK ∧
    (processChunkKeywordRows 1 1 (extractKeywordsFromTranscript wHits)).all
      (fun r => decide (r.confidence = r.relevance) &&
        decide (50 ≤ r.confidence) && decide (r.confidence ≤ 100)) = true := by
  refine C10_keyword_rows 1 1 wHits ?_
  intro h hh
  rw [wHits, List.mem_singleton] at hh
  rw [hh]
  norm_num

/-- The update pass of createChannelRecord preserves the number of rows
matching the external channel id. -/
theorem countP_update_channel (l : List ChannelRow) (cid cname curl : Str)
    (t : Nat) :
    (l.map (fun r => if r.channelId == cid then
        { r with channelName := cname, channelUrl := curl, updatedAt := t }
      else r)).countP (fun r => r.channelId == cid) =
      l.countP (fun r => r.channelId == cid) := by
  rw [List.countP_map]
  apply List.countP_congr
  intro a _
  by_cases h : a.channelId = cid
  · simp [h]
  · simp [h]

/-- After the update pass of createChannelRecord, every row with the
external channel id carries the fresh updatedAt. -/
theorem updatedAt_update_channel (l : List ChannelRow) (cid cname curl : Str)
    (t : Nat) :
    ∀ r ∈ l.map (fun r => if r.channelId == cid then
        { r with channelName := cname, channelUrl := curl, updatedAt := t }
      else r), r.channelId = cid → r.updatedAt = t := by
  intro r hr hcid
  obtain ⟨x, hx, hfx⟩ := List.mem_map.mp hr
  by_cases h : x.channelId == cid
  · rw [if_pos h] at hfx
    rw [← hfx]
  · rw [if_neg h] at hfx
    rw [← hfx] at hcid
    exact absurd (beq_iff_eq.mpr hcid) h

/-- The update pass of the video upsert preserves the number of rows
matching the external video id. -/
theorem countP_update_video (l : List VideoRow) (d : VideoData) (t : Nat) :
    (l.map (fun r => if r.videoId == d.videoId then
        { r with title := d.title, description := d.description,
                 publishedAt := d.publishedAt, duration := d.duration,
                 viewCount := d.viewCount, likeCount := d.likeCount,
                 thumbnailUrl := d.thumbnailUrl, videoUrl := d.videoUrl,
                 isTranscriptAvailable := true, transcript := d.transcript,
                 transcriptLength := d.transcript.length, updatedAt := t }
      else r)).countP (fun r => r.videoId == d.videoId) =
      l.countP (fun r => r.videoId == d.videoId) := by
  rw [List.countP_map]
  apply List.countP_congr
  intro a _
  by_cases h : a.videoId = d.videoId
  · simp [h]
  · simp [h]

/-- After the update pass of the video upsert, every row with the
external video id carries the fresh updatedAt. -/
theorem updatedAt_update_video (l : List VideoRow) (d : VideoData) (t : Nat) :
    ∀ r ∈ l.map (fun r => if r.videoId == d.videoId then
        { r with title := d.title, description := d.description,
                 publishedAt := d.publishedAt, duration := d.duration,
                 viewCount := d.viewCount, likeCount := d.likeCount,
                 thumbnailUrl := d.thumbnailUrl, videoUrl := d.videoUrl,
                 isTranscriptAvailable := true, transcript := d.transcript,
                 transcriptLength := d.transcript.length, updatedAt := t }
      else r), r.videoId = d.videoId → r.updatedAt = t := by
  intro r hr hvid
  obtain ⟨x, hx, hfx⟩ := List.mem_map.mp hr
  by_cases h : x.videoId == d.videoId
  · rw [if_pos h] at hfx
    rw [← hfx]
  · rw [if_neg h] at hfx
    rw [← hfx] at hvid
    exact absurd (beq_iff_eq.mpr hvid) h

/-- C6: upserting the same channel twice (same external channel id) and
the same video twice (same external video id) with identical data, from a
state with no row for the respective key, yields exactly one matching
Channel row and one matching Video row; the second pass keeps the row
count and refreshes updatedAt of the matching rows instead of inserting a
duplicate. -/
theorem C6_idempotent_upserts (cs : List ChannelRow) (vs : List VideoRow)
    (i1 i2 i3 i4 t1 t2 t3 t4 : Nat) (cid cname curl : Str) (d : VideoData)
    (hc : cs.countP (fun r => r.channelId == cid) = 0)
    (hv : vs.countP (fun r => r.videoId == d.videoId) = 0) :
    ((createChannelRecord (createChannelRecord cs i1 t1 cid cname curl)
        i2 t2 cid cname curl).countP (fun r => r.channelId == cid) = 1 ∧
      (createChannelRecord (createChannelRecord cs i1 t1 cid cname curl)
        i2 t2 cid cname curl).length =
        (createChannelRecord cs i1 t1 cid cname curl).length ∧
      ∀ r ∈ createChannelRecord (createChannelRecord cs i1 t1 cid cname curl)
          i2 t2 cid cname curl,
        r.channelId = cid → r.updatedAt = t2) ∧
    ((upsertVideo (upsertVideo vs i3 t3 d) i4 t4 d).countP
        (fun r => r.videoId == d.videoId) = 1 ∧
      (upsertVideo (upsertVideo vs i3 t3 d) i4 t4 d).length =
        (upsertVideo vs i3 t3 d).length ∧
      ∀ r ∈ upsertVideo (upsertVideo vs i3 t3 d) i4 t4 d,
        r.videoId = d.videoId → r.updatedAt = t4) := by
  have hanyc : cs.any (fun r => r.channelId == cid) = false := by
    rw [List.any_eq_false]
    intro x hx
    exact List.countP_eq_zero.mp hc x hx
  have hanyv : vs.any (fun r => r.videoId == d.videoId) = false := by
    rw [List.any_eq_false]
    intro x hx
    exact List.countP_eq_zero.mp hv x hx
  constructor
  · have e1 : createChannelRecord cs i1 t1 cid cname curl =
        cs ++ [{ id := i1, channelId := cid, channelName := cname,
                 channelUrl := curl, isIndexed := false, createdAt := t1,
                 updatedAt := t1 }] := by
      unfold createChannelRecord
      rw [hanyc]
      simp
    have hcount1 : (createChannelRecord cs i1 t1 cid cname curl).countP
        (fun r => r.channelId == cid) = 1 := by
      rw [e1, List.countP_append, hc]
      simp
    have hany1 : (createChannelRecord cs i1 t1 cid cname curl).any
        (fun r => r.channelId == cid) = true := by
      rw [e1, List.any_append]
      simp
    have e2 : createChannelRecord (createChannelRecord cs i1 t1 cid cname curl)
        i2 t2 cid cname curl =
        (createChannelRecord cs i1 t1 cid cname curl).map
          (fun r => if r.channelId == cid then
            { r with channelName := cname, channelUrl := curl,
                     updatedAt := t2 }
          else r) := by
      conv in createChannelRecord (createChannelRecord _ _ _ _ _ _) _ _ _ _ _ =>
        rw [createChannelRecord]
      rw [hany1]
      simp
    rw [e2]
    exact ⟨by rw [countP_update_channel]; exact hcount1,
      List.length_map _ _,
      updatedAt_update_channel _ _ _ _ _⟩
  · have e1 : upsertVideo vs i3 t3 d =
        vs ++ [{ id := i3, videoId := d.videoId, channelId := d.channelId,
                 title := d.title, description := d.description,
                 publishedAt := d.publishedAt, duration := d.duration,
                 viewCount := d.viewCount, likeCount := d.likeCount,
                 thumbnailUrl := d.thumbnailUrl, videoUrl := d.videoUrl,
                 isTranscriptAvailable := true, transcript := d.transcript,
                 transcriptLength := d.transcript.length,
                 createdAt := t3, updatedAt := t3 }] := by
      unfold upsertVideo
      rw [hanyv]
      simp
    have hcount1 : (upsertVideo vs i3 t3 d).countP
        (fun r => r.videoId == d.videoId) = 1 := by
      rw [e1, List.countP_append, hv]
      simp
    have hany1 : (upsertVideo vs i3 t3 d).any
        (fun r => r.videoId == d.videoId) = true := by
      rw [e1, List.any_append]
      simp
    have e2 : upsertVideo (upsertVideo vs i3 t3 d) i4 t4 d =
        (upsertVideo vs i3 t3 d).map
          (fun r => if r.videoId == d.videoId then
            { r with title := d.title, description := d.description,
                     publishedAt := d.publishedAt, duration := d.duration,
                     viewCount := d.viewCount, likeCount := d.likeCount,
                     thumbnailUrl := d.thumbnailUrl, videoUrl := d.videoUrl,
                     isTranscriptAvailable := true, transcript := d.transcript,
                     transcriptLength := d.transcript.length,
                     updatedAt := t4 }
          else r) := by
      conv in upsertVideo (upsertVideo _ _ _ _) _ _ _ =>
        rw [upsertVideo]
      rw [hany1]
      simp
    rw [e2]
    exact ⟨by rw [countP_update_video]; exact hcount1,
      List.length_map _ _,
      updatedAt_update_video _ _ _⟩

/-- C6 witness: both double upserts from the empty tables leave exactly
one row for the key. -/
theorem C6_witness :
    (createChannelRecord (createChannelRecord [] 1 5 (str (r"chan"))
        (str (r"name")) (str (r"url"))) 2 6 (str (r"chan")) (str (r"name"))
        (str (r"url"))).countP
      (fun r => r.channelId == str (r"chan")) = 1 ∧
    (upsertVideo (upsertVideo [] 1 5 wVideoData) 2 6 wVideoData).countP
      (fun r => r.videoId == wVideoData.videoId) = 1 := by
  have H := C6_idempotent_upserts [] [] 1 2 1 2 5 6 5 6 (str (r"chan"))
    (str (r"name")) (str (r"url")) wVideoData (by decide) (by decide)
  exact ⟨H.1.1, H.2.1⟩

/-- The segmentation loop produces chunks whose times chain from the
start time of the pending chunk. -/
theorem segGo_times (sentences : List Str) :
    ∀ (cur : Str) (curTok idx start : Nat),
      timesChainFrom start (segGo sentences cur curTok idx start) := by
  induction sentences with
  | nil =>
    intro cur curTok idx start
    simp only [segGo]
    split
    · exact ⟨rfl, Nat.le_add_right _ _, trivial⟩
    · trivial
  | cons s rest ih =>
    intro cur curTok idx start
    simp only [segGo]
    split
    · exact ⟨rfl, Nat.le_add_right _ _, ih _ _ _ _⟩
    · exact ih _ _ _ _

/-- Each chunk of a chained list ends no earlier than it starts. -/
theorem timesChainFrom_mem (cs : List SegChunk) :
    ∀ s, timesChainFrom s cs → ∀ c ∈ cs, c.startTime ≤ c.endTime := by
  induction cs with
  | nil =>
    intro s _ c hc
    cases hc
  | cons c rest ih =>
    intro s h d hd
    rcases List.mem_cons.mp hd with he | hmem
    · rw [he]
      exact h.2.1
    · exact ih c.endTime h.2.2 d hmem

/-- A chained list satisfies the adjacency property: each chunk ends
where the next one starts. -/
theorem timesChainFrom_chain (cs : List SegChunk) :
    ∀ s, timesChainFrom s cs →
      List.Chain' (fun a b => a.endTime = b.startTime) cs := by
  induction cs with
  | nil =>
    intro s _
    exact List.chain'_nil
  | cons c rest ih =>
    intro s h
    cases rest with
    | nil => simp
    | cons d rest2 =>
      rw [List.chain'_cons]
      exact ⟨h.2.2.1.symm, ih c.endTime h.2.2⟩

/-- C5: in the ordered chunk sequence produced by segmentation, the first
chunk starts at time 0 (headD of the empty sequence defaults to start
time 0), every chunk satisfies startTime at most endTime, and each chunk
ends exactly where the next one starts. -/
theorem C5_time_invariants (transcript : Str) :
    ((createTranscriptChunks transcript).headD ⟨0, [], 0, 0, 0⟩).startTime
        = 0 ∧
    (∀ c ∈ createTranscriptChunks transcript, c.startTime ≤ c.endTime) ∧
    List.Chain' (fun a b => a.endTime = b.startTime)
      (createTranscriptChunks transcript) := by
  have h := segGo_times (splitIntoSentences transcript) [] 0 0 0
  refine ⟨?_, timesChainFrom_mem _ 0 h, timesChainFrom_chain _ 0 h⟩
  cases he : segGo (splitIntoSentences transcript) [] 0 0 0 with
  | nil =>
    show ((createTranscriptChunks transcript).headD _).startTime = 0
    rw [createTranscriptChunks, he]
    rfl
  | cons c rest =>
    show ((createTranscriptChunks transcript).headD _).startTime = 0
    rw [createTranscriptChunks, he]
    rw [he] at h
    exact h.1

/-- C5 witness: the invariants at a concrete transcript with one chunk. -/
theorem C5_witness :
    ((createTranscriptChunks wTranscript).headD ⟨0, [], 0, 0, 0⟩).startTime
        = 0 ∧
    ((createTranscriptChunks wTranscript).headD ⟨0, [], 0, 0, 0⟩).startTime ≤
      ((createTranscriptChunks wTranscript).headD ⟨0, [], 0, 0, 0⟩).endTime := by
  have H := C5_time_invariants wTranscript
  exact ⟨H.1, H.2.1 _ (by decide)⟩

/-- The segmentation loop never returns an empty chunk list when the
pending text is nonempty or a nonempty sentence remains. -/
theorem segGo_ne_nil (sentences : List Str) :
    ∀ (cur : Str) (curTok idx start : Nat),
      (∀ s ∈ sentences, s ≠ []) → (cur ≠ [] ∨ sentences ≠ []) →
      segGo sentences cur curTok idx start ≠ [] := by
  induction sentences with
  | nil =>
    intro cur curTok idx start _ hd
    have hcur : cur ≠ [] := by
      rcases hd with h | h
      · exact h
      · exact absurd rfl h
    simp only [segGo]
    rw [if_pos hcur]
    simp
  | cons s rest ih =>
    intro cur curTok idx start hall _
    simp only [segGo]
    split
    · simp
    · apply ih _ _ _ _ (fun x hx => hall x (List.mem_cons_of_mem _ hx))
      left
      by_cases hcur : cur = []
      · rw [if_pos hcur]
        exact hall s (List.mem_cons_self _ _)
      · rw [if_neg hcur]
        intro hap
        exact absurd (List.append_eq_nil.mp
          (List.append_eq_nil.mp hap).1).2 (by decide)

/-- Every sentence of splitIntoSentences is nonempty. -/
theorem splitIntoSentences_ne_nil (transcript : Str) :
    ∀ s ∈ splitIntoSentences transcript, s ≠ [] := by
  intro s hs
  have h := (List.mem_filter.mp hs).2
  intro he
  rw [he] at h
  simp at h

/-- Under the chunk budget, the segmentation loop emits at most the one
final chunk. -/
theorem segGo_le_one (sentences : List Str) :
    ∀ (cur : Str) (curTok idx start : Nat),
      curTok + (sentences.map estimateTokenCount).sum ≤ CHUNK_SIZE →
      (segGo sentences cur curTok idx start).length ≤ 1 := by
  induction sentences with
  | nil =>
    intro cur curTok idx start _
    simp only [segGo]
    split
    · simp
    · simp
  | cons s rest ih =>
    intro cur curTok idx start hsum
    simp only [List.map_cons, List.sum_cons] at hsum
    simp only [segGo]
    rw [if_neg]
    · apply ih
      omega
    · intro hand
      have h1 := hand.1
      omega

/-- C4, amended: segmentation yields at least one chunk exactly when the
sentence split of the transcript is nonempty (the empty transcript, and
any transcript of only punctuation and whitespace, yields zero chunks),
and when additionally the sentence token estimates sum to at most the
chunk budget, exactly one chunk is produced. -/
theorem C4_chunk_count (transcript : Str) :
    (transcript = [] → createTranscriptChunks transcript = []) ∧
    (createTranscriptChunks transcript ≠ [] ↔
      splitIntoSentences transcript ≠ []) ∧
    (splitIntoSentences transcript ≠ [] →
      ((splitIntoSentences transcript).map estimateTokenCount).sum ≤
        CHUNK_SIZE →
      (createTranscriptChunks transcript).length = 1) := by
  have hne : splitIntoSentences transcript ≠ [] →
      createTranscriptChunks transcript ≠ [] := fun hs =>
    segGo_ne_nil _ [] 0 0 0 (splitIntoSentences_ne_nil transcript)
      (Or.inr hs)
  refine ⟨?_, ⟨?_, hne⟩, ?_⟩
  · intro h
    subst h
    decide
  · intro hchunks
    intro hs
    apply hchunks
    rw [createTranscriptChunks, hs]
    decide
  · intro hs hsum
    have hle := segGo_le_one (splitIntoSentences transcript) [] 0 0 0
      (by simpa using hsum)
    have hpos : 0 < (createTranscriptChunks transcript).length :=
      List.length_pos.mpr (hne hs)
    rw [createTranscriptChunks] at hpos ⊢
    omega

/-- C4 witness: the three-sentence transcript fits one budget and yields
exactly one chunk. -/
theorem C4_witness :
    (createTranscriptChunks wTranscript).length = 1 :=
  (C4_chunk_count wTranscript).2.2 (by decide) (by decide)

/-- jsRound is monotone. -/
theorem jsRound_mono {q r : ℚ} (h : q ≤ r) : jsRound q ≤ jsRound r :=
  Int.floor_le_floor (by linarith)

/-- Batch progress values are at least 20. -/
theorem batchProgress_ge (n pc : Nat) : 20 ≤ batchProgress n pc := by
  unfold batchProgress jsRound
  rw [Int.le_floor]
  have h : 0 ≤ ((pc : ℚ) / (n : ℚ)) * 30 := by positivity
  push_cast
  linarith

/-- Batch progress values are at most 50 once the processed count is
bounded by the total. -/
theorem batchProgress_le (n pc : Nat) (hpc : pc ≤ n) (hn : 1 ≤ n) :
    batchProgress n pc ≤ 50 := by
  unfold batchProgress jsRound
  have hn' : (0 : ℚ) < (n : ℚ) := by exact_mod_cast hn
  have hdiv : ((pc : ℚ) / (n : ℚ)) ≤ 1 := by
    rw [div_le_one hn']
    exact_mod_cast hpc
  have hlt : (⌊(20 : ℚ) + (pc : ℚ) / (n : ℚ) * 30 + 1 / 2⌋ : ℤ) < 51 := by
    rw [Int.floor_lt]
    push_cast
    linarith
  omega

/-- Batch progress is monotone in the processed count. -/
theorem batchProgress_mono (n : Nat) {a b : Nat} (h : a ≤ b) :
    batchProgress n a ≤ batchProgress n b := by
  unfold batchProgress
  apply jsRound_mono
  rcases Nat.eq_zero_or_pos n with hn | hn
  · subst hn
    norm_num
  · have hn' : (0 : ℚ) < (n : ℚ) := by exact_mod_cast hn
    have hab : (a : ℚ) ≤ (b : ℚ) := by exact_mod_cast h
    have hdiv : (a : ℚ) / (n : ℚ) ≤ (b : ℚ) / (n : ℚ) := by gcongr
    linarith

/-- Membership in batchEnds bounds the processed count by the total and
forces at least one video. -/
theorem mem_batchEnds {n pc : Nat} (h : pc ∈ batchEnds n) :
    pc ≤ n ∧ 1 ≤ n := by
  unfold batchEnds at h
  obtain ⟨i, hi, he⟩ := List.mem_map.mp h
  have hir := List.mem_range.mp hi
  subst he
  constructor
  · exact min_le_right _ _
  · omega

/-- C3, amended: in a successful indexChannel run the sequence of
progress values written to the IndexStatus row is monotonically
non-decreasing (0, 10, one value per batch in the 20 to 50 band, 100);
the failure-path update is the exception the counterexample exhibits,
writing progress 0. -/
theorem C3_amended_monotone (n : Nat) :
    List.Chain' (fun a b => a ≤ b) (progressWritesSuccess n) := by
  apply List.Pairwise.chain'
  unfold progressWritesSuccess
  have hbounds : ∀ x ∈ (batchEnds n).map (batchProgress n),
      20 ≤ x ∧ x ≤ 50 := by
    intro x hx
    obtain ⟨pc, hpc, he⟩ := List.mem_map.mp hx
    obtain ⟨h1, h2⟩ := mem_batchEnds hpc
    subst he
    exact ⟨batchProgress_ge n pc, batchProgress_le n pc h1 h2⟩
  refine List.pairwise_cons.mpr ⟨?_, List.pairwise_cons.mpr ⟨?_, ?_⟩⟩
  · intro b hb
    rcases List.mem_cons.mp hb with h | h
    · omega
    · rcases List.mem_append.mp h with h | h
      · have := (hbounds b h).1
        omega
      · rw [List.mem_singleton.mp h]
        omega
  · intro b hb
    rcases List.mem_append.mp hb with h | h
    · have := (hbounds b h).1
      omega
    · rw [List.mem_singleton.mp h]
      omega
  · apply List.pairwise_append.mpr
    refine ⟨?_, ?_, ?_⟩
    · rw [List.pairwise_map]
      unfold batchEnds
      rw [List.pairwise_map]
      apply List.Pairwise.imp ?_ (List.pairwise_lt_range _)
      intro i j hij
      apply batchProgress_mono
      exact min_le_min (by omega) le_rfl
    · simp
    · intro x hx y hy
      rw [List.mem_singleton.mp hy]
      have := (hbounds x hx).2
      omega

/-- keywordSearch never reads the search log table. -/
theorem keywordSearch_ignores_logs (db : DB) (logs : List SearchLogRow)
    (q : Str) (opts : SearchOptions) :
    keywordSearch { db with searchLogs := logs } q opts =
      keywordSearch db q opts := rfl

/-- The vector-path result assembly never reads the search log table. -/
theorem buildVectorResult_ignores_logs (db : DB) (logs : List SearchLogRow)
    (q : Str) (opts : SearchOptions) (l : List (ChunkRow × ℚ)) :
    l.filterMap (buildVectorResult { db with searchLogs := logs } q opts) =
      l.filterMap (buildVectorResult db q opts) := rfl

/-- logSearchQuery changes at most the search log table. -/
theorem logSearchQuery_logsOnly (db : DB) (q : Str) (e : List ℚ)
    (c : Option Nat) (b : Bool) :
    ∃ l, logSearchQuery db q e c b = { db with searchLogs := l } := by
  unfold logSearchQuery
  cases c with
  | none => exact ⟨db.searchLogs, rfl⟩
  | some cid =>
    cases b with
    | false => exact ⟨_, rfl⟩
    | true => exact ⟨db.searchLogs, rfl⟩

/-- C1, counterexample: when the query-embedding call throws, search()
propagates the exception instead of falling back: at the empty database
with the query obama and default options, search returns the error, not
the keyword-search result the claim promises. -/
theorem C1_counterexample :
    (search DB.empty (Except.error (str (r"boom"))) (Except.ok []) false
        false (str (r"obama")) {}).1 = Except.error (str (r"boom")) ∧
    (search DB.empty (Except.error (str (r"boom"))) (Except.ok []) false
        false (str (r"obama")) {}).1 ≠
      Except.ok (keywordSearch DB.empty (str (r"obama")) {}) := by
  refine ⟨rfl, ?_⟩
  intro h
  exact Except.noConfusion
    (show (Except.error (str (r"boom")) : Except Str (List SearchResult)) =
      Except.ok (keywordSearch DB.empty (str (r"obama")) {}) from h)

/-- C1, amended: when the vector-similarity step throws (the embedding
having succeeded), search() returns exactly the keyword-search result for
the same query and options, or the empty list when the keyword search
step itself throws, and raises nothing; an embedding-call failure, by
contrast, propagates out of search(). -/
theorem C1_amended_fallback (db : DB) (emb : List ℚ) (e : Str)
    (vec : Except Str (List (ChunkRow × ℚ))) (kwFails logFails : Bool)
    (q : Str) (opts : SearchOptions) :
    (search db (Except.ok emb) (Except.error e) kwFails logFails q opts).1 =
      Except.ok (if kwFails then [] else keywordSearch db q opts) ∧
    (search db (Except.error e) vec kwFails logFails q opts).1 =
      Except.error e := by
  refine ⟨?_, rfl⟩
  obtain ⟨cid, lim, thr, inc⟩ := opts
  cases cid with
  | none => cases kwFails <;> rfl
  | some h =>
    cases hch : getChannelDbIdByHandle db h with
    | none =>
      cases kwFails with
      | false =>
        simp only [search, keywordSearch, hch]
        rfl
      | true =>
        simp only [search, hch]
        rfl
    | some c =>
      cases kwFails with
      | false =>
        simp only [search, hch]
        obtain ⟨l, hl⟩ := logSearchQuery_logsOnly db q emb (some c) logFails
        rw [hl, keywordSearch_ignores_logs]
        rfl
      | true =>
        simp only [search, hch]
        rfl

/-- C8, counterexample: a successful search call without a channel scope
writes nothing to the SearchQueryLog store (logSearchQuery only inserts
when a channel id resolved), refuting that every call logs the query:
at the empty database the call succeeds and the final state still has an
empty log table. -/
theorem C8_counterexample :
    search DB.empty (Except.ok [1]) (Except.ok []) false false
        (str (r"obama")) {} = (Except.ok [], DB.empty) := rfl

/-- C8, amended: search() attempts to log the query only when a channel
scope is present and resolves; a failure of the logging step (the oracle
flag) never changes the returned results, and without a channel scope the
database is left untouched. -/
theorem C8_amended_logging (db : DB) (embedRes : Except Str (List ℚ))
    (vecRes : Except Str (List (ChunkRow × ℚ))) (kwFails b : Bool)
    (q : Str) (opts : SearchOptions) :
    (search db embedRes vecRes kwFails b q opts).1 =
      (search db embedRes vecRes kwFails false q opts).1 ∧
    (opts.channelId = none →
      (search db embedRes vecRes kwFails b q opts).2 = db) := by
  obtain ⟨cid, lim, thr, inc⟩ := opts
  cases embedRes with
  | error e => exact ⟨rfl, fun _ => rfl⟩
  | ok emb =>
    cases cid with
    | none =>
      constructor
      · cases vecRes with
        | error e => cases kwFails <;> rfl
        | ok lst =>
          cases lst with
          | nil => cases kwFails <;> rfl
          | cons x xs => rfl
      · intro _
        cases vecRes with
        | error e => cases kwFails <;> rfl
        | ok lst =>
          cases lst with
          | nil => cases kwFails <;> rfl
          | cons x xs => rfl
    | some h =>
      cases hch : getChannelDbIdByHandle db h with
      | none =>
        constructor
        · simp only [search, hch]
        · intro hn
          simp at hn
      | some c =>
        constructor
        · obtain ⟨l1, e1⟩ := logSearchQuery_logsOnly db q emb (some c) b
          obtain ⟨l2, e2⟩ := logSearchQuery_logsOnly db q emb (some c) false
          simp only [search, hch]
          rw [e1, e2]
          cases vecRes with
          | error er =>
            cases kwFails with
            | true => rfl
            | false =>
              rw [keywordSearch_ignores_logs, keywordSearch_ignores_logs]
              rfl
          | ok lst =>
            cases lst with
            | nil =>
              cases kwFails with
              | true => rfl
              | false =>
                rw [keywordSearch_ignores_logs, keywordSearch_ignores_logs]
                rfl
            | cons x xs =>
              rw [buildVectorResult_ignores_logs,
                buildVectorResult_ignores_logs]
              rfl
        · intro hn
          simp at hn

/-- C8 witness: at the empty database, a no-scope call returns the same
results whether or not the log insert would fail, and leaves the
database unchanged. -/
theorem C8_witness :
    (search DB.empty (Except.ok [1]) (Except.ok []) false true
        (str (r"obama")) {}).1 =
      (search DB.empty (Except.ok [1]) (Except.ok []) false false
        (str (r"obama")) {}).1 ∧
    (search DB.empty (Except.ok [1]) (Except.ok []) false true
        (str (r"obama")) {}).2 = DB.empty := by
  have H := C8_amended_logging DB.empty (Except.ok [1]) (Except.ok [])
    false true (str (r"obama")) {}
  exact ⟨H.1, H.2 rfl⟩
